import Mathlib

/-
Verification of the PowerFlowGame engine core: a shallow embedding of the
game engine's transactional state machine (src/engine/engine.py), the
id-indexed entity repositories (src/models/data/ldc_repo.py and its
subclasses), and the market-coupling boundary (src/engine/market_coupling.py).

Conventions of the embedding:
* Python floats are embedded as rationals (ℚ); all arithmetic is exact.
* The pandas DataFrame behind an `LdcRepo` is embedded as the list of its
  rows in stored (index) order; `df.equals` is position-wise equality.
* Code that can raise (`LdcRepo.__getitem__` raising `KeyError`) returns
  `Except String`.
* The pypsa/HiGHS optimal-power-flow solve is an external boundary; it is
  embedded as an explicit `SolverOutput` value handed to the engine.
* Some model methods called by the engine exist in the repository only
  through their callers and tests; those definitions carry a doc comment
  starting `Modelled from the spec:` naming what is missing.
-/

namespace PowerFlowGame

/-- The id-carrying interface of the light dataclasses stored in a repo
(src/models/data/light_dc.py: every `LightDc` has an integer `id`). -/
class HasId (α : Type) where
  getId : α → Int

/-- From src/models/player.py: a `Player` row. The `color` hex-string is kept
as a plain string; its format assertion is not needed by any engine path. -/
structure Player where
  id : Int
  name : String
  color : String
  money : ℚ
  is_having_turn : Bool
deriving DecidableEq

instance : HasId Player := ⟨Player.id⟩

/-- Generator/load tag of an asset (spec section 3: Asset is Generator or
Load; the superseded enum in src/models/assets.py also carries BUS and
TRANSMISSION tags that the current engine never stores in the asset repo). -/
inductive AssetType where
  | GENERATOR
  | LOAD
deriving DecidableEq

/-- Modelled from the spec: the current `AssetInfo` row is not under src/
(src/models/assets.py holds a superseded version without bid/sale fields);
fields follow spec section 3 and the constructor calls in
tests/utils/repo_maker.py and src/engine/new_game.py. -/
structure AssetInfo where
  id : Int
  owner_player : Int
  asset_type : AssetType
  bus : Int
  power_expected : ℚ
  power_std : ℚ
  is_for_sale : Bool
  minimum_acquisition_price : ℚ
  fixed_operating_cost : ℚ
  marginal_cost : ℚ
  bid_price : ℚ
  is_ice_cream : Bool
  is_active : Bool
deriving DecidableEq

instance : HasId AssetInfo := ⟨AssetInfo.id⟩

/-- Modelled from the spec: the current `TransmissionInfo` row is not under
src/ (src/models/transmission.py holds a superseded version without
capacity/activity/sale fields); fields follow spec section 3 and the
constructor calls in tests/utils/repo_maker.py. -/
structure TransmissionInfo where
  id : Int
  owner_player : Int
  bus1 : Int
  bus2 : Int
  reactance : ℚ
  capacity : ℚ
  health : Nat
  fixed_operating_cost : ℚ
  is_for_sale : Bool
  minimum_acquisition_price : ℚ
  is_active : Bool
deriving DecidableEq

instance : HasId TransmissionInfo := ⟨TransmissionInfo.id⟩

/-- From src/models/buses.py: a `Bus` row. -/
structure Bus where
  id : Int
  x : ℚ
  y : ℚ
  player_id : Int
deriving DecidableEq

instance : HasId Bus := ⟨Bus.id⟩

/-- From src/models/data/ldc_repo.py: a dataframe-backed, id-indexed
collection of rows of one entity kind. The dataframe is embedded as the
list of its rows in stored (index) order. Construction asserts that ids
are unique; theorems that need uniqueness take it as a hypothesis. -/
structure LdcRepo (α : Type) where
  rows : List α
deriving DecidableEq

namespace LdcRepo

variable {α : Type} [HasId α]

/-- The index of the dataframe: the ids in stored order. -/
def ids (r : LdcRepo α) : List Int :=
  r.rows.map HasId.getId

/-- Row lookup by id (first row whose id matches). -/
def find? (r : LdcRepo α) (i : Int) : Option α :=
  r.rows.find? (fun a => HasId.getId a == i)

/-- From `LdcRepo.__getitem__` (src/models/data/ldc_repo.py lines 60-68):
lookup by id, raising `KeyError` when the id is absent. -/
def getItem (r : LdcRepo α) (i : Int) : Except String α :=
  match r.find? i with
  | some a => .ok a
  | none => .error ("Element with id " ++ toString i ++ " not found")

/-- From `LdcRepo.filter`: a copy of the repo keeping the rows satisfying
the condition, in stored order. -/
def filter (r : LdcRepo α) (p : α → Bool) : LdcRepo α :=
  ⟨r.rows.filter p⟩

/-- An update-by-copy of the row(s) with the given id, as performed through
`df.loc[id, col] = value` followed by `update_frame` (row positions are
preserved). -/
def update (r : LdcRepo α) (i : Int) (f : α → α) : LdcRepo α :=
  ⟨r.rows.map (fun a => if HasId.getId a == i then f a else a)⟩

/-- From `LdcRepo.__eq__` (src/models/data/ldc_repo.py lines 92-95):
`self.df.equals(other.df)` — pandas compares the two dataframes cell by
cell in stored position, index included, so it is equality of the row
lists in stored order. -/
def eq {β : Type} [DecidableEq β] (r1 r2 : LdcRepo β) : Bool :=
  decide (r1.rows = r2.rows)

end LdcRepo

/-- From src/models/player.py: `PlayerRepo`. -/
abbrev PlayerRepo := LdcRepo Player

namespace PlayerRepo

/-- From `PlayerRepo.player_ids`: the index as a list. -/
def player_ids (r : PlayerRepo) : List Int :=
  LdcRepo.ids r

/-- From `PlayerRepo.get_currently_playing`: the players whose turn flag is
set. -/
def get_currently_playing (r : PlayerRepo) : PlayerRepo :=
  LdcRepo.filter r (fun p => p.is_having_turn)

/-- From `PlayerRepo.are_all_players_finished` (src/models/player.py lines
41-42): no player is currently playing. -/
def are_all_players_finished (r : PlayerRepo) : Bool :=
  (get_currently_playing r).rows.length == 0

/-- From `PlayerRepo.add_money` via `_adjust_money` (src/models/player.py
lines 45-54): adjust one player's money by copy. -/
def add_money (r : PlayerRepo) (player_id : Int) (amount : ℚ) : PlayerRepo :=
  LdcRepo.update r player_id (fun p => { p with money := p.money + amount })

/-- Modelled from the spec: `PlayerRepo.subtract_money` is not under src/
(engine.py line 242 is its caller); BuyAsset "debits the purchase price",
the mirror image of `add_money`. -/
def subtract_money (r : PlayerRepo) (player_id : Int) (amount : ℚ) : PlayerRepo :=
  LdcRepo.update r player_id (fun p => { p with money := p.money - amount })

/-- Modelled from the spec: `PlayerRepo.start_all_turns` is not under src/
(engine.py line 95 is its caller); concluding a phase must "reset every
player's turn flag to active". -/
def start_all_turns (r : PlayerRepo) : PlayerRepo :=
  ⟨r.rows.map (fun p => { p with is_having_turn := true })⟩

/-- Modelled from the spec: `PlayerRepo.end_turn` is not under src/
(engine.py line 265 is its caller); EndTurn "clears that player's
is-having-turn flag". -/
def end_turn (r : PlayerRepo) (player_id : Int) : PlayerRepo :=
  LdcRepo.update r player_id (fun p => { p with is_having_turn := false })

/-- Money of a player by id, defaulting to 0; the engine reads balances only
for ids present in the repo. -/
def money_of (r : PlayerRepo) (player_id : Int) : ℚ :=
  match LdcRepo.find? r player_id with
  | some p => p.money
  | none => 0

end PlayerRepo

/-- Modelled from the spec: the current `AssetRepo` is not under src/ (only
its callers in engine.py and its tests are); operations follow the engine's
call sites and spec sections 3 and 4.1. -/
abbrev AssetRepo := LdcRepo AssetInfo

namespace AssetRepo

/-- The asset ids, as read by `game_state.assets.asset_ids`. -/
def asset_ids (r : AssetRepo) : List Int :=
  LdcRepo.ids r

/-- Modelled from the spec: assets of one player, restricted to active
assets when `only_active` is set (the engine always passes
`only_active=True`; settlement and the affordability check run over "their
active assets"). -/
def get_all_for_player (r : AssetRepo) (player_id : Int) (only_active : Bool) : AssetRepo :=
  LdcRepo.filter r (fun a => a.owner_player == player_id && (!only_active || a.is_active))

/-- Modelled from the spec: `update_bid_price` (engine.py line 194 is its
caller) returns a copy with that asset's bid price replaced. -/
def update_bid_price (r : AssetRepo) (asset_id : Int) (bid_price : ℚ) : AssetRepo :=
  LdcRepo.update r asset_id (fun a => { a with bid_price := bid_price })

/-- Modelled from the spec: `get_cashflow_sign` (engine.py line 187 is its
caller); dispatch magnitudes are non-negative and "sign/direction is
asset-type-dependent" — a generator produces (+1), a load consumes (-1). -/
def get_cashflow_sign (r : AssetRepo) (asset_id : Int) : ℚ :=
  match LdcRepo.find? r asset_id with
  | some a =>
    match a.asset_type with
    | AssetType.GENERATOR => 1
    | AssetType.LOAD => -1
  | none => 0

/-- Modelled from the spec: `change_owner` (engine.py line 243 is its
caller); a successful BuyAsset "transfers ownership, clears the for-sale
flag", and tests/test_engine/test_engine.py asserts the bought asset's
for-sale flag is cleared. -/
def change_owner (r : AssetRepo) (asset_id : Int) (new_owner : Int) : AssetRepo :=
  LdcRepo.update r asset_id (fun a => { a with owner_player := new_owner, is_for_sale := false })

end AssetRepo

/-- From src/models/transmission.py: `TransmissionRepo` (whose row type is
modelled, see `TransmissionInfo`). -/
abbrev TransmissionRepo := LdcRepo TransmissionInfo

namespace TransmissionRepo

/-- Modelled from the spec: lines of one player restricted to active lines
when `only_active` is set (src/models/transmission.py line 36 holds a
superseded `get_all_for_player` without the activity filter; engine.py line
65 calls it with `only_active=True` over "their active transmission
lines"). -/
def get_all_for_player (r : TransmissionRepo) (player_id : Int) (only_active : Bool) :
    TransmissionRepo :=
  LdcRepo.filter r (fun t => t.owner_player == player_id && (!only_active || t.is_active))

end TransmissionRepo

/-- From src/models/buses.py: `BusRepo`. -/
abbrev BusRepo := LdcRepo Bus

/-- From src/models/game_settings.py: the immutable game settings (the
geometric `map_area`, which no engine path reads, is omitted). -/
structure GameSettings where
  n_buses : Nat := 5
  max_rounds : Nat := 20
  n_init_ice_cream : Nat := 5
  n_init_assets : Nat := 10
  min_bid_price : ℚ := -100
  max_bid_price : ℚ := 100
  initial_funds : Int := 1000
  max_connections_per_bus : Nat := 7
deriving DecidableEq

/-- From src/models/game_state.py: the `Phase` enum. -/
inductive Phase where
  | CONSTRUCTION
  | SNEAKY_TRICKS
  | DA_AUCTION
deriving DecidableEq

namespace Phase

/-- Modelled from the spec: `Phase.get_next` is not under src/ (engine.py
line 95 is its caller; src/models/game_state.py holds a superseded
non-cyclic `next_phase`); the spec makes the enum cyclic — "after
DA_AUCTION the next phase wraps to CONSTRUCTION". -/
def get_next : Phase → Phase
  | CONSTRUCTION => SNEAKY_TRICKS
  | SNEAKY_TRICKS => DA_AUCTION
  | DA_AUCTION => CONSTRUCTION

/-- The `.name` of a phase member, used in broadcast texts. -/
def name : Phase → String
  | CONSTRUCTION => "CONSTRUCTION"
  | SNEAKY_TRICKS => "SNEAKY_TRICKS"
  | DA_AUCTION => "DA_AUCTION"

end Phase

/-- From src/models/market_coupling_result.py: the three time-indexed result
tables. The engine consumes only the first timestep (`.loc[0, :]`,
engine.py lines 51-55), so each table is embedded as its first-timestep
column map from entity id to value. -/
structure MarketCouplingResult where
  bus_prices : Int → ℚ
  transmission_flows : Int → ℚ
  assets_dispatch : Int → ℚ

/-- Modelled from the spec: the current `GameState` dataclass is not under
src/ (src/models/game_state.py holds a superseded version; the fields
follow the constructor call in tests/utils/game_state_maker.py and spec
section 3). -/
structure GameState where
  game_id : Int
  game_settings : GameSettings
  phase : Phase
  players : PlayerRepo
  buses : BusRepo
  assets : AssetRepo
  transmission : TransmissionRepo
  market_coupling_result : Option MarketCouplingResult

/-- Modelled from the spec: the player-originated and internal messages of
src/models/message.py (the version under src/ is superseded: it lacks
`ConcludePhase`); one variant per message kind handled by
`Engine.handle_message`. -/
inductive ToGameMessage where
  | updateBidRequest (player_id : Int) (asset_id : Int) (bid_price : ℚ)
  | buyAssetRequest (player_id : Int) (asset_id : Int)
  | endTurn (player_id : Int)
  | concludePhase (phase : Phase)

/-- Modelled from the spec: the engine-originated responses/broadcasts and
the internal self-message, mirroring `FromGameMessage` =
`InternalMessage | GameToPlayerMessage`. -/
inductive FromGameMessage where
  | gameUpdate (player_id : Int) (game_state : GameState) (message : String)
  | updateBidResponse (player_id : Int) (game_state : GameState) (success : Bool)
      (message : String) (asset_id : Int)
  | buyAssetResponse (player_id : Int) (game_state : GameState) (success : Bool)
      (message : String) (asset_id : Int)
  | concludePhase (phase : Phase)

/-- Status reported by the external optimal-power-flow solve (spec section
6: "status must be checked for optimal before results are trusted"). -/
inductive SolverStatus where
  | optimal
  | infeasible
  | suboptimal
deriving DecidableEq

/-- The external solver boundary: what one pypsa/HiGHS `network.optimize`
call produces for the single snapshot — a status and the per-bus price,
per-line flow and per-asset dispatch-magnitude tables
(src/engine/market_coupling.py lines 85-96). -/
structure SolverOutput where
  status : SolverStatus
  bus_prices : Int → ℚ
  transmission_flows : Int → ℚ
  assets_dispatch : Int → ℚ

namespace MarketCouplingCalculator

/-- From `MarketCouplingCalculator.optimize_network`
(src/engine/market_coupling.py lines 75-83): the return value of
`network.optimize` — which carries the solver status — is discarded and no
status is inspected; the call only has the side effect of populating the
network tables, which the embedding carries in `SolverOutput`. -/
def optimize_network (_network : SolverOutput) : Unit := ()

/-- From `MarketCouplingCalculator.run` (src/engine/market_coupling.py lines
17-26): solve, then assemble the `MarketCouplingResult` from the network
tables. No branch examines the solver status. -/
def run (solver : SolverOutput) : MarketCouplingResult :=
  { bus_prices := solver.bus_prices
    transmission_flows := solver.transmission_flows
    assets_dispatch := solver.assets_dispatch }

end MarketCouplingCalculator

namespace Engine

/-- The body of the per-player settlement loop of
`Engine.update_game_state_with_market_coupling_result` (engine.py lines
57-69): market cashflow plus congestion payments minus operating cost of
one player, read from the first timestep of the result tables. -/
def player_settlement_delta (game_state : GameState) (mcr : MarketCouplingResult)
    (player_id : Int) : ℚ :=
  let active_assets := (AssetRepo.get_all_for_player game_state.assets player_id true).rows
  let operating_cost :=
    (active_assets.map (fun a =>
      |mcr.assets_dispatch a.id| * a.marginal_cost + a.fixed_operating_cost)).sum
  let market_cashflow :=
    (active_assets.map (fun a => mcr.assets_dispatch a.id * a.bid_price)).sum
  let active_lines := (TransmissionRepo.get_all_for_player game_state.transmission player_id true).rows
  let congestion_payments :=
    (active_lines.map (fun l =>
      mcr.transmission_flows l.id * (mcr.bus_prices l.bus1 - mcr.bus_prices l.bus2))).sum
  market_cashflow + congestion_payments - operating_cost

/-- From `Engine.update_game_state_with_market_coupling_result` (engine.py
lines 44-79). Note the faithful embedding of line 72: every loop iteration
sets `players` to `game_state.players.add_money(...)` — the add is applied
to the ORIGINAL repo of the outer `game_state`, not to the accumulated
one, so each iteration overwrites the previous iteration's update. -/
def update_game_state_with_market_coupling_result (game_state : GameState)
    (market_coupling_result : MarketCouplingResult) : GameState :=
  let looped :=
    game_state.players.rows.foldl
      (fun acc player =>
        { acc with
          players :=
            PlayerRepo.add_money game_state.players player.id
              (player_settlement_delta game_state market_coupling_result player.id) })
      game_state
  { looped with market_coupling_result := some market_coupling_result }

/-- From the closure `increment_phase_and_start_turns` inside
`Engine.handle_new_phase_message` (engine.py lines 94-95): advance the
phase from the message's phase and reset the turn flags — reading
`players` from the OUTER `game_state` of the handler, not from `gs`. -/
def increment_phase_and_start_turns (game_state : GameState) (msg_phase : Phase)
    (gs : GameState) : GameState :=
  { gs with
    phase := msg_phase.get_next
    players := PlayerRepo.start_all_turns game_state.players }

/-- From `Engine._make_phase_update_messages` (engine.py lines 130-141). -/
def make_phase_update_messages (game_state : GameState) : List FromGameMessage :=
  (PlayerRepo.player_ids game_state.players).map (fun player_id =>
    FromGameMessage.gameUpdate player_id game_state
      ("Phase changed to " ++ game_state.phase.name))

/-- From `Engine.handle_new_phase_message` (engine.py lines 81-128). The
day-ahead branch runs the market coupling (the external solve's outcome is
the `solver` argument), applies settlement, advances the phase, and
broadcasts the balance texts; no branch inspects the solver status. -/
def handle_new_phase_message (game_state : GameState) (msg_phase : Phase)
    (solver : SolverOutput) : GameState × List FromGameMessage :=
  match msg_phase with
  | Phase.CONSTRUCTION =>
    let new_game_state := increment_phase_and_start_turns game_state msg_phase game_state
    (new_game_state, make_phase_update_messages new_game_state)
  | Phase.DA_AUCTION =>
    let market_result := MarketCouplingCalculator.run solver
    let settled := update_game_state_with_market_coupling_result game_state market_result
    let new_game_state := increment_phase_and_start_turns game_state msg_phase settled
    let msgs := make_phase_update_messages new_game_state
    let balance_msgs :=
      (PlayerRepo.player_ids new_game_state.players).map (fun player_id =>
        let old_money := PlayerRepo.money_of game_state.players player_id
        let new_money := PlayerRepo.money_of new_game_state.players player_id
        FromGameMessage.gameUpdate player_id new_game_state
          ("Day-ahead market cleared. Your balance was adjusted accordingly from $"
            ++ toString old_money ++ " to $" ++ toString new_money ++ "."))
    (new_game_state, msgs ++ balance_msgs)
  | Phase.SNEAKY_TRICKS =>
    let new_game_state := increment_phase_and_start_turns game_state msg_phase game_state
    (new_game_state, make_phase_update_messages new_game_state)

/-- The affordability bound of `Engine.handle_update_bid_message` (engine.py
lines 182-188): over all of the player's active assets, the bid price —
with the proposed price substituted for the asset being updated — times
the cashflow sign times the 5-sigma worst-case volume. -/
def safe_expected_market_cashflow (game_state : GameState) (player_id : Int)
    (msg_asset_id : Int) (msg_bid_price : ℚ) : ℚ :=
  let reliability_coefficient : ℚ := 5
  ((AssetRepo.get_all_for_player game_state.assets player_id true).rows.map (fun a =>
    let max_expected_volume := a.power_expected + reliability_coefficient * a.power_std
    let bid_price := if a.id != msg_asset_id then a.bid_price else msg_bid_price
    bid_price * AssetRepo.get_cashflow_sign game_state.assets a.id * max_expected_volume)).sum

/-- From `Engine.handle_update_bid_message` (engine.py lines 143-205).
The checks run in source order: asset existence, player lookup (which can
raise `KeyError`), ownership, bid range, affordability. After the
affordability for-loop the Python name `asset` refers to the LAST iterated
active asset when the loop ran (loop-variable reuse); the post-loop
message texts embed that leaked id faithfully. -/
def handle_update_bid_message (game_state : GameState) (player_id asset_id : Int)
    (bid_price : ℚ) : Except String (GameState × List FromGameMessage) :=
  let failed := fun (failed_message : String) =>
    (game_state,
      [FromGameMessage.updateBidResponse player_id game_state false failed_message asset_id])
  if !(AssetRepo.asset_ids game_state.assets).contains asset_id then
    .ok (failed "Asset does not exist.")
  else do
    let player ← LdcRepo.getItem game_state.players player_id
    let asset ← LdcRepo.getItem game_state.assets asset_id
    let min_bid := game_state.game_settings.min_bid_price
    let max_bid := game_state.game_settings.max_bid_price
    if player.id != asset.owner_player then
      pure (failed ("Player " ++ toString player.id ++ " cannot bid on asset "
        ++ toString asset.id ++ " as they do not own it."))
    else if !(min_bid ≤ bid_price && bid_price ≤ max_bid : Bool) then
      pure (failed ("Bid price " ++ toString bid_price
        ++ " is not within the allowed range [" ++ toString min_bid ++ ", "
        ++ toString max_bid ++ "]."))
    else
      let leaked_asset :=
        ((AssetRepo.get_all_for_player game_state.assets player.id true).rows.getLast?).getD asset
      if player.money - safe_expected_market_cashflow game_state player.id asset_id bid_price < 0 then
        pure (failed ("Player " ++ toString player.id ++ " cannot afford the bid price of "
          ++ toString bid_price ++ " for asset " ++ toString leaked_asset.id ++ "."))
      else
        let new_game_state :=
          { game_state with
            assets := AssetRepo.update_bid_price game_state.assets asset_id bid_price }
        pure (new_game_state,
          [FromGameMessage.updateBidResponse player.id new_game_state true
            ("Player " ++ toString player.id ++ " successfully updated bid for asset "
              ++ toString leaked_asset.id ++ " to " ++ toString bid_price ++ ".")
            asset_id])

/-- From `Engine.handle_buy_asset_message` (engine.py lines 207-250). The
player lookup (which can raise `KeyError`) precedes the asset-existence
check; then for-sale and affordability are checked, and on success the
price is debited and the ownership transferred in one returned state. -/
def handle_buy_asset_message (game_state : GameState) (player_id asset_id : Int) :
    Except String (GameState × List FromGameMessage) :=
  let failed := fun (failed_message : String) =>
    (game_state,
      [FromGameMessage.buyAssetResponse player_id game_state false failed_message asset_id])
  do
    let player ← LdcRepo.getItem game_state.players player_id
    if !(AssetRepo.asset_ids game_state.assets).contains asset_id then
      pure (failed ("Asset " ++ toString asset_id ++ " does not exist."))
    else do
      let asset ← LdcRepo.getItem game_state.assets asset_id
      if !asset.is_for_sale then
        pure (failed ("Asset " ++ toString asset.id ++ " is not for sale."))
      else if player.money < asset.minimum_acquisition_price then
        pure (failed ("Player " ++ toString player.id ++ " cannot afford asset "
          ++ toString asset.id ++ "."))
      else
        let new_players :=
          PlayerRepo.subtract_money game_state.players player.id asset.minimum_acquisition_price
        let new_assets := AssetRepo.change_owner game_state.assets asset.id player.id
        let new_game_state := { game_state with players := new_players, assets := new_assets }
        pure (new_game_state,
          [FromGameMessage.buyAssetResponse player.id new_game_state true
            ("Player " ++ toString player.id ++ " successfully bought asset "
              ++ toString asset.id ++ ".")
            asset_id])

/-- From `Engine.handle_end_turn_message` (engine.py lines 252-269): clear
the player's turn flag; if every player is now finished, emit the internal
`ConcludePhase` message carrying the (unchanged) current phase. -/
def handle_end_turn_message (game_state : GameState) (player_id : Int) :
    GameState × List FromGameMessage :=
  let game_state' :=
    { game_state with players := PlayerRepo.end_turn game_state.players player_id }
  if PlayerRepo.are_all_players_finished game_state'.players then
    (game_state', [FromGameMessage.concludePhase game_state'.phase])
  else
    (game_state', [])

/-- From `Engine.handle_message` (engine.py lines 21-42): dispatch on the
message kind. The union is closed, so the `NotImplementedError` branch of
the source has no counterpart. The external solve outcome is passed
through to the phase handler. -/
def handle_message (game_state : GameState) (msg : ToGameMessage) (solver : SolverOutput) :
    Except String (GameState × List FromGameMessage) :=
  match msg with
  | ToGameMessage.concludePhase phase =>
    .ok (handle_new_phase_message game_state phase solver)
  | ToGameMessage.updateBidRequest player_id asset_id bid_price =>
    handle_update_bid_message game_state player_id asset_id bid_price
  | ToGameMessage.buyAssetRequest player_id asset_id =>
    handle_buy_asset_message game_state player_id asset_id
  | ToGameMessage.endTurn player_id =>
    .ok (handle_end_turn_message game_state player_id)

end Engine

/-- Shape test on an Except value, used to state that a handler did or did
not raise. -/
def isOk {α : Type} : Except String α → Bool
  | .ok _ => true
  | .error _ => false

/-- Example player 1. -/
def exPlayer1 : Player :=
  { id := 1, name := "Alice", color := "#ff0000", money := 100, is_having_turn := true }

/-- Example player 2. -/
def exPlayer2 : Player :=
  { id := 2, name := "Bob", color := "#00ff00", money := 100, is_having_turn := true }

/-- Example generator owned by player 1. -/
def exAsset11 : AssetInfo :=
  { id := 11, owner_player := 1, asset_type := AssetType.GENERATOR, bus := 1
    power_expected := 4, power_std := 0, is_for_sale := false
    minimum_acquisition_price := 40, fixed_operating_cost := 2, marginal_cost := 1
    bid_price := 3, is_ice_cream := false, is_active := true }

/-- Example generator owned by player 2. -/
def exAsset22 : AssetInfo :=
  { id := 22, owner_player := 2, asset_type := AssetType.GENERATOR, bus := 2
    power_expected := 2, power_std := 0, is_for_sale := false
    minimum_acquisition_price := 40, fixed_operating_cost := 2, marginal_cost := 1
    bid_price := 3, is_ice_cream := false, is_active := true }

/-- Example NPC-owned asset that is for sale. -/
def exAsset7 : AssetInfo :=
  { id := 7, owner_player := -1, asset_type := AssetType.GENERATOR, bus := 1
    power_expected := 1, power_std := 0, is_for_sale := true
    minimum_acquisition_price := 40, fixed_operating_cost := 0, marginal_cost := 0
    bid_price := 0, is_ice_cream := false, is_active := true }

/-- Example NPC-owned asset that is not for sale. -/
def exAsset8 : AssetInfo :=
  { id := 8, owner_player := -1, asset_type := AssetType.GENERATOR, bus := 2
    power_expected := 1, power_std := 0, is_for_sale := false
    minimum_acquisition_price := 40, fixed_operating_cost := 0, marginal_cost := 0
    bid_price := 0, is_ice_cream := false, is_active := true }

/-- Example game state: two players with active turns, their generators, and
two NPC assets (one for sale, one not). -/
def exState : GameState :=
  { game_id := 1
    game_settings := {}
    phase := Phase.DA_AUCTION
    players := ⟨[exPlayer1, exPlayer2]⟩
    buses := ⟨[⟨1, 0, 0, 1⟩, ⟨2, 1, 0, 2⟩]⟩
    assets := ⟨[exAsset11, exAsset22, exAsset7, exAsset8]⟩
    transmission := ⟨[]⟩
    market_coupling_result := none }

/-- Example dispatch outcome: asset 11 dispatched at 4, asset 22 at 2, flat
zero prices and flows. -/
def exMcr : MarketCouplingResult :=
  { bus_prices := fun _ => 0
    transmission_flows := fun _ => 0
    assets_dispatch := fun i => if i = 11 then 4 else if i = 22 then 2 else 0 }

/-- Example solver outcome whose status is not optimal (infeasible) but
whose tables are populated. -/
def exSolverBad : SolverOutput :=
  { status := SolverStatus.infeasible
    bus_prices := fun _ => 0
    transmission_flows := fun _ => 0
    assets_dispatch := fun i => if i = 11 then 4 else if i = 22 then 2 else 0 }

/-- Example solver outcome with optimal status (for statements that do not
care about the solve). -/
def exSolverOk : SolverOutput :=
  { status := SolverStatus.optimal
    bus_prices := fun _ => 0
    transmission_flows := fun _ => 0
    assets_dispatch := fun _ => 0 }

/-- Example player repository storing players 1 and 2 in that order. -/
def exPr1 : PlayerRepo := ⟨[exPlayer1, exPlayer2]⟩

/-- Example player repository storing the same two players in the opposite
order. -/
def exPr2 : PlayerRepo := ⟨[exPlayer2, exPlayer1]⟩

/-- Handling a sequence of EndTurn messages in the given order through
`Engine.handle_end_turn_message`, threading the state and collecting every
outbound message in emission order. -/
def run_end_turns : GameState → List Int → GameState × List FromGameMessage
  | gs, [] => (gs, [])
  | gs, pid :: rest =>
    let step := Engine.handle_end_turn_message gs pid
    let next := run_end_turns step.1 rest
    (next.1, step.2 ++ next.2)

/-- A player row with the turn flag cleared. -/
def clearTurn (p : Player) : Player :=
  { p with is_having_turn := false }

/-- The player rows with the turn flag cleared exactly for the ids in the
given list. -/
def clearTurnIn (s : List Int) (l : List Player) : List Player :=
  l.map (fun p => if p.id ∈ s then clearTurn p else p)

section RepoLemmas

variable {α : Type} [HasId α]

theorem getId_of_find? {r : LdcRepo α} {i : Int} {a : α}
    (h : LdcRepo.find? r i = some a) : HasId.getId a = i := by
  unfold LdcRepo.find? at h
  have hp := List.find?_some h
  exact eq_of_beq hp

theorem find?_isSome_iff_mem_ids {r : LdcRepo α} {i : Int} :
    (LdcRepo.find? r i).isSome = true ↔ i ∈ LdcRepo.ids r := by
  simp only [LdcRepo.find?, LdcRepo.ids, List.find?_isSome, List.mem_map, beq_iff_eq]

theorem contains_ids_true {r : LdcRepo α} {i : Int} {a : α}
    (h : LdcRepo.find? r i = some a) : (LdcRepo.ids r).contains i = true := by
  have hs : (LdcRepo.find? r i).isSome = true := by simp [h]
  have := find?_isSome_iff_mem_ids.mp hs
  simpa using this

theorem find?_eq_none_of_not_contains {r : LdcRepo α} {i : Int}
    (h : ¬ (LdcRepo.ids r).contains i = true) : LdcRepo.find? r i = none := by
  by_contra hne
  rcases Option.ne_none_iff_exists'.mp hne with ⟨a, ha⟩
  exact h (contains_ids_true ha)

theorem find?_update_list (l : List α) (i : Int) (f : α → α)
    (hf : ∀ a, HasId.getId (f a) = HasId.getId a) :
    (l.map (fun a => if HasId.getId a == i then f a else a)).find?
        (fun a => HasId.getId a == i)
      = (l.find? (fun a => HasId.getId a == i)).map f := by
  induction l with
  | nil => rfl
  | cons a t ih =>
    by_cases h : HasId.getId a = i
    · simp [List.find?_cons, h, hf]
    · have h1 : (HasId.getId a == i) = false := by simpa using h
      simp only [List.map_cons, h1, Bool.false_eq_true, if_false, List.find?_cons, ih]

theorem find?_update {r : LdcRepo α} {i : Int} {f : α → α}
    (hf : ∀ a, HasId.getId (f a) = HasId.getId a) :
    LdcRepo.find? (LdcRepo.update r i f) i = (LdcRepo.find? r i).map f :=
  find?_update_list r.rows i f hf

theorem getItem_of_find? {r : LdcRepo α} {i : Int} {a : α}
    (h : LdcRepo.find? r i = some a) : LdcRepo.getItem r i = .ok a := by
  simp [LdcRepo.getItem, h]

theorem getItem_error_of_find?_none {r : LdcRepo α} {i : Int}
    (h : LdcRepo.find? r i = none) :
    LdcRepo.getItem r i = .error ("Element with id " ++ toString i ++ " not found") := by
  simp [LdcRepo.getItem, h]

end RepoLemmas

theorem are_all_players_finished_iff (r : PlayerRepo) :
    PlayerRepo.are_all_players_finished r = true ↔
      ∀ p ∈ r.rows, p.is_having_turn = false := by
  simp [PlayerRepo.are_all_players_finished, PlayerRepo.get_currently_playing,
    LdcRepo.filter, List.length_eq_zero, List.filter_eq_nil_iff]

theorem start_all_turns_flag (r : PlayerRepo) :
    ∀ p ∈ (PlayerRepo.start_all_turns r).rows, p.is_having_turn = true := by
  intro p hp
  simp only [PlayerRepo.start_all_turns, List.mem_map] at hp
  rcases hp with ⟨q, _, rfl⟩
  rfl

/-- C1 evidence: in the example state, both players' settlement deltas are
nonzero (6 and 2), yet after
`Engine.update_game_state_with_market_coupling_result` player 1's money is
unchanged at 100 — only the last-iterated player 2 receives a delta —
because each loop iteration rebuilds `players` from the original
`game_state.players` (engine.py line 72), overwriting the previous
iteration's settlement. -/
theorem c1_settlement_overwrites_previous_players :
    Engine.player_settlement_delta exState exMcr 1 = 6 ∧
    Engine.player_settlement_delta exState exMcr 2 = 2 ∧
    PlayerRepo.money_of
      (Engine.update_game_state_with_market_coupling_result exState exMcr).players 1 = 100 ∧
    PlayerRepo.money_of
      (Engine.update_game_state_with_market_coupling_result exState exMcr).players 2 = 102 := by
  refine ⟨?_, ?_, ?_, ?_⟩ <;>
    norm_num [Engine.update_game_state_with_market_coupling_result,
      Engine.player_settlement_delta, AssetRepo.get_all_for_player,
      TransmissionRepo.get_all_for_player, LdcRepo.filter, PlayerRepo.add_money,
      PlayerRepo.money_of, LdcRepo.update, LdcRepo.find?, exState, exMcr, exAsset11,
      exAsset22, exAsset7, exAsset8, exPlayer1, exPlayer2, HasId.getId]

/-- C2 evidence: with a solver outcome whose status is `infeasible` (and
populated tables), handling ConcludePhase(DA_AUCTION) does not abort: it
returns normally, attaches the assembled `MarketCouplingResult` to the
state, and advances the phase — no code path inspects the solver status
(market_coupling.py line 82 discards the return of `network.optimize`). -/
theorem c2_non_optimal_status_not_checked :
    exSolverBad.status = SolverStatus.infeasible ∧
    isOk (Engine.handle_message exState
      (ToGameMessage.concludePhase Phase.DA_AUCTION) exSolverBad) = true ∧
    (Engine.handle_new_phase_message exState Phase.DA_AUCTION exSolverBad).1.market_coupling_result
      = some (MarketCouplingCalculator.run exSolverBad) ∧
    (Engine.handle_new_phase_message exState Phase.DA_AUCTION exSolverBad).1.phase
      = Phase.CONSTRUCTION :=
  ⟨rfl, rfl, rfl, rfl⟩

/-- C5: for every game state, message phase and solver outcome, handling
ConcludePhase(p) yields a state whose phase is the cyclically next one
(CONSTRUCTION before SNEAKY_TRICKS before DA_AUCTION, then wrapping to
CONSTRUCTION) and in which every player's turn flag is active. -/
theorem c5_conclude_phase_cyclic_and_turns_reset (gs : GameState) (p : Phase)
    (solver : SolverOutput) :
    (Engine.handle_new_phase_message gs p solver).1.phase = p.get_next ∧
    (∀ q ∈ (Engine.handle_new_phase_message gs p solver).1.players.rows,
      q.is_having_turn = true) ∧
    Phase.CONSTRUCTION.get_next = Phase.SNEAKY_TRICKS ∧
    Phase.SNEAKY_TRICKS.get_next = Phase.DA_AUCTION ∧
    Phase.DA_AUCTION.get_next = Phase.CONSTRUCTION := by
  refine ⟨?_, ?_, rfl, rfl, rfl⟩
  · cases p <;> rfl
  · cases p <;> exact fun q hq => start_all_turns_flag gs.players q hq

/-- C4: a BuyAsset request by a present player for an existing, for-sale,
affordable asset returns exactly the state in which the price is debited
and the ownership transferred with the for-sale flag cleared, plus one
success response — the three changes always occur together. -/
theorem c4_buy_asset_success (gs : GameState) (pid aid : Int) (player : Player)
    (asset : AssetInfo)
    (hp : LdcRepo.find? gs.players pid = some player)
    (ha : LdcRepo.find? gs.assets aid = some asset)
    (hsale : asset.is_for_sale = true)
    (hafford : ¬ player.money < asset.minimum_acquisition_price) :
    Engine.handle_buy_asset_message gs pid aid =
      .ok
        ({ gs with
            players := PlayerRepo.subtract_money gs.players player.id
              asset.minimum_acquisition_price
            assets := AssetRepo.change_owner gs.assets asset.id player.id },
          [FromGameMessage.buyAssetResponse player.id
            { gs with
                players := PlayerRepo.subtract_money gs.players player.id
                  asset.minimum_acquisition_price
                assets := AssetRepo.change_owner gs.assets asset.id player.id }
            true
            ("Player " ++ toString player.id ++ " successfully bought asset "
              ++ toString asset.id ++ ".")
            aid]) ∧
    LdcRepo.find? (AssetRepo.change_owner gs.assets asset.id player.id) aid
      = some { asset with owner_player := player.id, is_for_sale := false } ∧
    LdcRepo.find?
        (PlayerRepo.subtract_money gs.players player.id asset.minimum_acquisition_price) pid
      = some { player with money := player.money - asset.minimum_acquisition_price } := by
  have haid : asset.id = aid := getId_of_find? ha
  have hpid : player.id = pid := getId_of_find? hp
  subst haid
  subst hpid
  refine ⟨?_, ?_, ?_⟩
  · simp only [Engine.handle_buy_asset_message, getItem_of_find? hp, getItem_of_find? ha,
      AssetRepo.asset_ids, contains_ids_true ha, Bool.not_true, Bool.false_eq_true,
      if_false, hsale, if_neg hafford, Bind.bind, Except.bind, pure, Except.pure]
  · rw [AssetRepo.change_owner, find?_update (by intro a; rfl), ha]
    rfl
  · rw [PlayerRepo.subtract_money, find?_update (by intro a; rfl), hp]
    rfl

/-- C4 witness: player 1 buys the for-sale asset 7 of the example state. -/
theorem c4_buy_asset_success_witness :
    LdcRepo.find? exState.players 1 = some exPlayer1 ∧
    LdcRepo.find? exState.assets 7 = some exAsset7 ∧
    exAsset7.is_for_sale = true ∧
    ¬ exPlayer1.money < exAsset7.minimum_acquisition_price ∧
    (Engine.handle_buy_asset_message exState 1 7 =
      .ok
        ({ exState with
            players := PlayerRepo.subtract_money exState.players exPlayer1.id
              exAsset7.minimum_acquisition_price
            assets := AssetRepo.change_owner exState.assets exAsset7.id exPlayer1.id },
          [FromGameMessage.buyAssetResponse exPlayer1.id
            { exState with
                players := PlayerRepo.subtract_money exState.players exPlayer1.id
                  exAsset7.minimum_acquisition_price
                assets := AssetRepo.change_owner exState.assets exAsset7.id exPlayer1.id }
            true
            ("Player " ++ toString exPlayer1.id ++ " successfully bought asset "
              ++ toString exAsset7.id ++ ".")
            7]) ∧
      LdcRepo.find? (AssetRepo.change_owner exState.assets exAsset7.id exPlayer1.id) 7
        = some { exAsset7 with owner_player := exPlayer1.id, is_for_sale := false } ∧
      LdcRepo.find?
          (PlayerRepo.subtract_money exState.players exPlayer1.id
            exAsset7.minimum_acquisition_price) 1
        = some { exPlayer1 with money := exPlayer1.money - exAsset7.minimum_acquisition_price }) :=
  ⟨rfl, rfl, rfl, by decide,
    c4_buy_asset_success exState 1 7 exPlayer1 exAsset7 rfl rfl rfl (by decide)⟩

/-- C9 (amended): a BuyAsset request by a present player on an existing
asset that is not for sale, or that the player cannot afford, leaves the
state unchanged and returns one failure response whose message names the
reason; the not-for-sale check runs first. -/
theorem c9_buy_asset_rejections (gs : GameState) (pid aid : Int) (player : Player)
    (asset : AssetInfo)
    (hp : LdcRepo.find? gs.players pid = some player)
    (ha : LdcRepo.find? gs.assets aid = some asset)
    (hcase : asset.is_for_sale = false ∨ player.money < asset.minimum_acquisition_price) :
    Engine.handle_buy_asset_message gs pid aid =
      .ok (gs,
        [FromGameMessage.buyAssetResponse pid gs false
          (if asset.is_for_sale then
            "Player " ++ toString player.id ++ " cannot afford asset "
              ++ toString asset.id ++ "."
          else "Asset " ++ toString asset.id ++ " is not for sale.")
          aid]) := by
  cases hsale : asset.is_for_sale with
  | false =>
    simp only [Engine.handle_buy_asset_message, getItem_of_find? hp, getItem_of_find? ha,
      AssetRepo.asset_ids, contains_ids_true ha, Bool.not_true, Bool.not_false,
      Bool.false_eq_true, if_false, if_true, hsale, Bind.bind, Except.bind, pure, Except.pure]
  | true =>
    have hmoney : player.money < asset.minimum_acquisition_price := by
      rcases hcase with h | h
      · rw [hsale] at h; cases h
      · exact h
    simp only [Engine.handle_buy_asset_message, getItem_of_find? hp, getItem_of_find? ha,
      AssetRepo.asset_ids, contains_ids_true ha, Bool.not_true, Bool.false_eq_true,
      if_false, if_true, hsale, if_pos hmoney, Bind.bind, Except.bind, pure, Except.pure]

/-- C9 witness: in the example state, a buy of the not-for-sale asset 8 by
player 1 is rejected with the not-for-sale message and an unchanged
state. -/
theorem c9_buy_asset_rejections_witness :
    LdcRepo.find? exState.players 1 = some exPlayer1 ∧
    LdcRepo.find? exState.assets 8 = some exAsset8 ∧
    exAsset8.is_for_sale = false ∧
    Engine.handle_buy_asset_message exState 1 8 =
      .ok (exState,
        [FromGameMessage.buyAssetResponse 1 exState false
          (if exAsset8.is_for_sale then
            "Player " ++ toString exPlayer1.id ++ " cannot afford asset "
              ++ toString exAsset8.id ++ "."
          else "Asset " ++ toString exAsset8.id ++ " is not for sale.")
          8]) :=
  ⟨rfl, rfl, rfl,
    c9_buy_asset_rejections exState 1 8 exPlayer1 exAsset8 rfl rfl (Or.inl rfl)⟩

/-- C9 counterexample: the claim quantifies over every BuyAsset request on
an existing not-for-sale asset, but a request naming an unknown player id
(99) on the existing not-for-sale asset 8 makes the handler raise
(`KeyError` from the player lookup) instead of returning the claimed
failure response. -/
theorem c9_counterexample :
    LdcRepo.find? exState.assets 8 = some exAsset8 ∧
    exAsset8.is_for_sale = false ∧
    LdcRepo.find? exState.players 99 = none ∧
    isOk (Engine.handle_buy_asset_message exState 99 8) = false :=
  ⟨rfl, rfl, rfl, rfl⟩

/-- C8 (amended): an UpdateBid request whose price lies outside the
configured range leaves the state unchanged and yields exactly one
success=false response, provided the acting player id is present in the
players repository (or the asset does not exist at all — then the asset
check rejects first); an existing asset with an unknown player id raises
instead (see C10). -/
theorem c8_update_bid_out_of_range (gs : GameState) (pid aid : Int) (price : ℚ)
    (hout : ¬ (gs.game_settings.min_bid_price ≤ price ∧
      price ≤ gs.game_settings.max_bid_price))
    (hvalid : (∃ p, LdcRepo.find? gs.players pid = some p) ∨
      LdcRepo.find? gs.assets aid = none) :
    ∃ m, Engine.handle_update_bid_message gs pid aid price =
      .ok (gs, [FromGameMessage.updateBidResponse pid gs false m aid]) := by
  by_cases hc : (AssetRepo.asset_ids gs.assets).contains aid = true
  · have hsome : (LdcRepo.find? gs.assets aid).isSome = true := by
      rw [find?_isSome_iff_mem_ids]
      simpa [AssetRepo.asset_ids] using hc
    rcases Option.isSome_iff_exists.mp hsome with ⟨asset, ha⟩
    have hplayer : ∃ p, LdcRepo.find? gs.players pid = some p := by
      rcases hvalid with h | h
      · exact h
      · rw [h] at ha; cases ha
    rcases hplayer with ⟨player, hp⟩
    by_cases hown : player.id = asset.owner_player
    · have hb : ((gs.game_settings.min_bid_price ≤ price : Bool) &&
          (price ≤ gs.game_settings.max_bid_price : Bool)) = false := by
        rcases not_and_or.mp hout with h | h <;> simp [h]
      refine ⟨"Bid price " ++ toString price ++ " is not within the allowed range ["
        ++ toString gs.game_settings.min_bid_price ++ ", "
        ++ toString gs.game_settings.max_bid_price ++ "].", ?_⟩
      simp only [Engine.handle_update_bid_message, getItem_of_find? hp, getItem_of_find? ha,
        hc, Bool.not_true, Bool.false_eq_true, if_false, hown, bne_self_eq_false, hb,
        Bool.not_false, if_true, Bind.bind, Except.bind, pure, Except.pure]
    · refine ⟨"Player " ++ toString player.id ++ " cannot bid on asset "
        ++ toString asset.id ++ " as they do not own it.", ?_⟩
      have hbne : (player.id != asset.owner_player) = true := by
        simpa using hown
      simp only [Engine.handle_update_bid_message, getItem_of_find? hp, getItem_of_find? ha,
        hc, Bool.not_true, Bool.false_eq_true, if_false, hbne, if_true,
        Bind.bind, Except.bind, pure, Except.pure]
  · refine ⟨"Asset does not exist.", ?_⟩
    have hc' : (AssetRepo.asset_ids gs.assets).contains aid = false :=
      Bool.not_eq_true _ ▸ eq_false_of_ne_true hc
    simp only [Engine.handle_update_bid_message, hc', Bool.not_false, if_true]

/-- C8 witness: in the example state, player 1 bidding 150 (above the
maximum of 100) on their asset 11 is rejected with an unchanged state. -/
theorem c8_update_bid_out_of_range_witness :
    ¬ (exState.game_settings.min_bid_price ≤ (150 : ℚ) ∧
      (150 : ℚ) ≤ exState.game_settings.max_bid_price) ∧
    (∃ m, Engine.handle_update_bid_message exState 1 11 150 =
      .ok (exState, [FromGameMessage.updateBidResponse 1 exState false m 11])) :=
  ⟨by decide,
    c8_update_bid_out_of_range exState 1 11 150 (by decide) (Or.inl ⟨exPlayer1, rfl⟩)⟩

/-- C8 counterexample: the claim quantifies over every UpdateBid request
with an out-of-range price, but a request with price 150 on the existing
asset 11 by the unknown player 99 makes the handler raise (`KeyError` from
the player lookup) instead of returning the claimed success=false
response. -/
theorem c8_counterexample :
    ¬ (exState.game_settings.min_bid_price ≤ (150 : ℚ) ∧
      (150 : ℚ) ≤ exState.game_settings.max_bid_price) ∧
    LdcRepo.find? exState.players 99 = none ∧
    LdcRepo.find? exState.assets 11 = some exAsset11 ∧
    isOk (Engine.handle_update_bid_message exState 99 11 150) = false :=
  ⟨by decide, rfl, rfl, rfl⟩

/-- C7: for an UpdateBid request by a present player who owns the existing
asset, with a price inside the configured range, the handler fails —
returning the unchanged state and one failure response — exactly when the
player's money minus the 5-sigma worst-case cashflow
(`Engine.safe_expected_market_cashflow`, with the proposed price
substituted for the asset being updated) is negative; otherwise the only
state change is that asset's bid price. -/
theorem c7_update_bid_affordability (gs : GameState) (pid aid : Int) (price : ℚ)
    (player : Player) (asset : AssetInfo)
    (hp : LdcRepo.find? gs.players pid = some player)
    (ha : LdcRepo.find? gs.assets aid = some asset)
    (hown : player.id = asset.owner_player)
    (hrange : gs.game_settings.min_bid_price ≤ price ∧
      price ≤ gs.game_settings.max_bid_price) :
    (Engine.handle_update_bid_message gs pid aid price =
      if player.money - Engine.safe_expected_market_cashflow gs player.id aid price < 0 then
        .ok (gs,
          [FromGameMessage.updateBidResponse pid gs false
            ("Player " ++ toString player.id ++ " cannot afford the bid price of "
              ++ toString price ++ " for asset "
              ++ toString (((AssetRepo.get_all_for_player gs.assets player.id true).rows.getLast?.getD
                  asset).id) ++ ".")
            aid])
      else
        .ok ({ gs with assets := AssetRepo.update_bid_price gs.assets aid price },
          [FromGameMessage.updateBidResponse player.id
            { gs with assets := AssetRepo.update_bid_price gs.assets aid price } true
            ("Player " ++ toString player.id ++ " successfully updated bid for asset "
              ++ toString (((AssetRepo.get_all_for_player gs.assets player.id true).rows.getLast?.getD
                  asset).id) ++ " to " ++ toString price ++ ".")
            aid])) ∧
    LdcRepo.find? (AssetRepo.update_bid_price gs.assets aid price) aid
      = some { asset with bid_price := price } := by
  have haid : asset.id = aid := getId_of_find? ha
  have hpid : player.id = pid := getId_of_find? hp
  subst haid
  subst hpid
  have hbne : (player.id != asset.owner_player) = false := by simp [hown]
  have hb : ((gs.game_settings.min_bid_price ≤ price : Bool) &&
      (price ≤ gs.game_settings.max_bid_price : Bool)) = true := by
    simp [hrange.1, hrange.2]
  constructor
  · simp only [Engine.handle_update_bid_message, getItem_of_find? hp, getItem_of_find? ha,
      AssetRepo.asset_ids, contains_ids_true ha, Bool.not_true, Bool.false_eq_true,
      if_false, hbne, hb, Bool.not_true, Bind.bind, Except.bind, pure, Except.pure]
  · rw [AssetRepo.update_bid_price, find?_update (by intro a; rfl), ha]
    rfl

/-- C7 witness: player 1 proposes price 50 on asset 11 of the example
state; the hypotheses hold and the worst-case check decides the result. -/
theorem c7_update_bid_affordability_witness :
    LdcRepo.find? exState.players 1 = some exPlayer1 ∧
    LdcRepo.find? exState.assets 11 = some exAsset11 ∧
    exPlayer1.id = exAsset11.owner_player ∧
    (exState.game_settings.min_bid_price ≤ (50 : ℚ) ∧
      (50 : ℚ) ≤ exState.game_settings.max_bid_price) ∧
    ((Engine.handle_update_bid_message exState 1 11 50 =
      if exPlayer1.money - Engine.safe_expected_market_cashflow exState exPlayer1.id 11 50 < 0 then
        .ok (exState,
          [FromGameMessage.updateBidResponse 1 exState false
            ("Player " ++ toString exPlayer1.id ++ " cannot afford the bid price of "
              ++ toString (50 : ℚ) ++ " for asset "
              ++ toString (((AssetRepo.get_all_for_player exState.assets exPlayer1.id true).rows.getLast?.getD
                  exAsset11).id) ++ ".")
            11])
      else
        .ok ({ exState with assets := AssetRepo.update_bid_price exState.assets 11 50 },
          [FromGameMessage.updateBidResponse exPlayer1.id
            { exState with assets := AssetRepo.update_bid_price exState.assets 11 50 } true
            ("Player " ++ toString exPlayer1.id ++ " successfully updated bid for asset "
              ++ toString (((AssetRepo.get_all_for_player exState.assets exPlayer1.id true).rows.getLast?.getD
                  exAsset11).id) ++ " to " ++ toString (50 : ℚ) ++ ".")
            11])) ∧
      LdcRepo.find? (AssetRepo.update_bid_price exState.assets 11 50) 11
        = some { exAsset11 with bid_price := 50 }) :=
  ⟨rfl, rfl, rfl, by decide,
    c7_update_bid_affordability exState 1 11 50 exPlayer1 exAsset11 rfl rfl rfl (by decide)⟩

/-- Extensionality of id-keyed row lists: two lists with the same (nodup)
id sequence and the same first-match lookup at every id are equal. -/
theorem rows_ext_of_find? {α : Type} [HasId α] :
    ∀ (l1 l2 : List α), (l1.map HasId.getId).Nodup → (l2.map HasId.getId).Nodup →
      l1.map HasId.getId = l2.map HasId.getId →
      (∀ i, l1.find? (fun a => HasId.getId a == i) = l2.find? (fun a => HasId.getId a == i)) →
      l1 = l2 := by
  intro l1
  induction l1 with
  | nil =>
    intro l2 _ _ hmap _
    have : l2.map HasId.getId = [] := hmap.symm
    simpa using (List.map_eq_nil_iff.mp this).symm
  | cons a t ih =>
    intro l2 h1 h2 hmap hfind
    cases l2 with
    | nil => simp at hmap
    | cons b t2 =>
      simp only [List.map_cons, List.cons.injEq] at hmap
      obtain ⟨hab, htail⟩ := hmap
      have hfa := hfind (HasId.getId a)
      have hpa : (HasId.getId a == HasId.getId a) = true := by simp
      have hpb : (HasId.getId b == HasId.getId a) = true := by simp [hab]
      rw [List.find?_cons, hpa, List.find?_cons, hpb] at hfa
      obtain rfl : a = b := by
        injection hfa
      have h1' : (t.map HasId.getId).Nodup := (List.nodup_cons.mp h1).2
      have h2' : (t2.map HasId.getId).Nodup := (List.nodup_cons.mp h2).2
      have hnotin1 : HasId.getId a ∉ t.map HasId.getId := (List.nodup_cons.mp h1).1
      have hnotin2 : HasId.getId a ∉ t2.map HasId.getId := (List.nodup_cons.mp h2).1
      have htfind : ∀ i, t.find? (fun x => HasId.getId x == i)
          = t2.find? (fun x => HasId.getId x == i) := by
        intro i
        by_cases hi : i = HasId.getId a
        · subst hi
          have hn1 : t.find? (fun x => HasId.getId x == HasId.getId a) = none := by
            rw [List.find?_eq_none]
            intro x hx hbeq
            exact hnotin1 (List.mem_map.mpr ⟨x, hx, eq_of_beq hbeq⟩)
          have hn2 : t2.find? (fun x => HasId.getId x == HasId.getId a) = none := by
            rw [List.find?_eq_none]
            intro x hx hbeq
            exact hnotin2 (List.mem_map.mpr ⟨x, hx, eq_of_beq hbeq⟩)
          rw [hn1, hn2]
        · have hneg : (HasId.getId a == i) = false := by
            simpa using fun hcontra => hi hcontra.symm
          have := hfind i
          rwa [List.find?_cons, hneg, List.find?_cons, hneg] at this
      rw [ih t2 h1' h2' htail htfind]

/-- C3 (amended): repository equality (`LdcRepo.__eq__`, i.e. pandas
`df.equals`) holds exactly when the two repositories store the same id
sequence in the same order with structurally equal rows per id; it is NOT
invariant under permuting the stored row order. -/
theorem c3_repo_eq_iff {α : Type} [HasId α] [DecidableEq α] (r1 r2 : LdcRepo α)
    (h1 : (LdcRepo.ids r1).Nodup) (h2 : (LdcRepo.ids r2).Nodup) :
    LdcRepo.eq r1 r2 = true ↔
      (LdcRepo.ids r1 = LdcRepo.ids r2 ∧
        ∀ i, LdcRepo.find? r1 i = LdcRepo.find? r2 i) := by
  rw [LdcRepo.eq, decide_eq_true_eq]
  constructor
  · intro h
    have hr : r1 = r2 := by cases r1; cases r2; simpa using h
    subst hr
    exact ⟨rfl, fun _ => rfl⟩
  · rintro ⟨hids, hfind⟩
    exact rows_ext_of_find? r1.rows r2.rows h1 h2 hids hfind

/-- C3 witness: the characterization applied to the two-player example
repository compared with itself. -/
theorem c3_repo_eq_iff_witness :
    (LdcRepo.ids exPr1).Nodup ∧
    (LdcRepo.eq exPr1 exPr1 = true ↔
      (LdcRepo.ids exPr1 = LdcRepo.ids exPr1 ∧
        ∀ i, LdcRepo.find? exPr1 i = LdcRepo.find? exPr1 i)) :=
  ⟨by decide, c3_repo_eq_iff exPr1 exPr1 (by decide) (by decide)⟩

/-- C3 counterexample: two repositories holding the same two player rows
(a permutation of each other, unique ids) in different stored order, on
which `LdcRepo.__eq__` returns false — equality is not order
invariant. -/
theorem c3_counterexample :
    exPr1.rows.Perm exPr2.rows ∧
    (LdcRepo.ids exPr1).Nodup ∧
    (LdcRepo.ids exPr2).Nodup ∧
    LdcRepo.eq exPr1 exPr2 = false := by
  refine ⟨?_, by decide, by decide, by decide⟩
  exact List.Perm.swap exPlayer2 exPlayer1 []

/-- C10 (amended): a BuyAsset request with an unknown player id always
raises (the player lookup precedes every other check); an UpdateBid
request with an unknown player id raises exactly when the asset exists —
when the asset id is also unknown, the asset-existence check fires first
and returns a success=false response with unchanged state. -/
theorem c10_unknown_player_lookup (gs : GameState) (pid aid : Int) (price : ℚ)
    (solver : SolverOutput)
    (hp : LdcRepo.find? gs.players pid = none) :
    (∃ e, Engine.handle_message gs (ToGameMessage.buyAssetRequest pid aid) solver
      = .error e) ∧
    (∀ a, LdcRepo.find? gs.assets aid = some a →
      ∃ e, Engine.handle_message gs (ToGameMessage.updateBidRequest pid aid price) solver
        = .error e) ∧
    ((AssetRepo.asset_ids gs.assets).contains aid = false →
      Engine.handle_message gs (ToGameMessage.updateBidRequest pid aid price) solver
        = .ok (gs, [FromGameMessage.updateBidResponse pid gs false
            "Asset does not exist." aid])) := by
  refine ⟨?_, ?_, ?_⟩
  · refine ⟨"Element with id " ++ toString pid ++ " not found", ?_⟩
    simp only [Engine.handle_message, Engine.handle_buy_asset_message,
      getItem_error_of_find?_none hp, Bind.bind, Except.bind]
  · intro a ha
    refine ⟨"Element with id " ++ toString pid ++ " not found", ?_⟩
    simp only [Engine.handle_message, Engine.handle_update_bid_message,
      contains_ids_true (r := gs.assets) ha, AssetRepo.asset_ids, Bool.not_true,
      Bool.false_eq_true, if_false, getItem_error_of_find?_none hp, Bind.bind, Except.bind]
  · intro hc
    have hc' : (LdcRepo.ids gs.assets).contains aid = false := by
      simpa [AssetRepo.asset_ids] using hc
    simp only [Engine.handle_message, Engine.handle_update_bid_message,
      AssetRepo.asset_ids, hc', Bool.not_false, if_true]

/-- C10 witness: in the example state, unknown player 99 buying existing
asset 8 raises, updating a bid on existing asset 11 raises, and updating a
bid on the unknown asset 42 returns the failure response instead. -/
theorem c10_unknown_player_lookup_witness :
    LdcRepo.find? exState.players 99 = none ∧
    (∃ e, Engine.handle_message exState (ToGameMessage.buyAssetRequest 99 8) exSolverOk
      = .error e) ∧
    (∃ e, Engine.handle_message exState (ToGameMessage.updateBidRequest 99 11 5) exSolverOk
      = .error e) ∧
    Engine.handle_message exState (ToGameMessage.updateBidRequest 99 42 5) exSolverOk
      = .ok (exState, [FromGameMessage.updateBidResponse 99 exState false
          "Asset does not exist." 42]) :=
  ⟨rfl,
    (c10_unknown_player_lookup exState 99 8 5 exSolverOk rfl).1,
    (c10_unknown_player_lookup exState 99 11 5 exSolverOk rfl).2.1 exAsset11 rfl,
    (c10_unknown_player_lookup exState 99 42 5 exSolverOk rfl).2.2 rfl⟩

/-- C10 counterexample: the claim asserts that EVERY UpdateBid request with
an unknown player id raises; with both the player id (99) and the asset id
(42) unknown, `Engine.handle_message` instead returns normally with a
success=false response and the unchanged state. -/
theorem c10_counterexample :
    LdcRepo.find? exState.players 99 = none ∧
    Engine.handle_message exState (ToGameMessage.updateBidRequest 99 42 5) exSolverOk
      = .ok (exState, [FromGameMessage.updateBidResponse 99 exState false
          "Asset does not exist." 42]) :=
  ⟨rfl, rfl⟩

theorem getId_player (p : Player) : HasId.getId p = p.id := rfl

theorem end_turn_clearTurnIn (s : List Int) (l : List Player) (i : Int) :
    PlayerRepo.end_turn ⟨clearTurnIn s l⟩ i = ⟨clearTurnIn (s ++ [i]) l⟩ := by
  simp only [PlayerRepo.end_turn, LdcRepo.update, clearTurnIn, List.map_map]
  congr 1
  apply List.map_congr_left
  intro p _
  simp only [Function.comp_apply, getId_player]
  split_ifs <;> first
    | rfl
    | (exfalso; simp_all [clearTurn, getId_player])

theorem are_all_finished_clearTurnIn (s : List Int) (l : List Player)
    (hflags : ∀ p ∈ l, p.is_having_turn = true) :
    PlayerRepo.are_all_players_finished ⟨clearTurnIn s l⟩ = true ↔
      ∀ p ∈ l, p.id ∈ s := by
  rw [are_all_players_finished_iff]
  constructor
  · intro h p hp
    by_contra hns
    have hmem : p ∈ clearTurnIn s l := by
      have : (if p.id ∈ s then clearTurn p else p) = p := by simp [hns]
      exact this ▸ List.mem_map.mpr ⟨p, hp, rfl⟩
    have := h p hmem
    rw [hflags p hp] at this
    cases this
  · intro h q hq
    rcases List.mem_map.mp hq with ⟨p, hp, rfl⟩
    simp [h p hp, clearTurn]

theorem run_end_turns_incomplete :
    ∀ (todo : List Int) (gs : GameState) (s : List Int) (l : List Player),
      gs.players = ⟨clearTurnIn s l⟩ →
      (∀ p ∈ l, p.is_having_turn = true) →
      (∃ p ∈ l, p.id ∉ s ++ todo) →
      run_end_turns gs todo = ({ gs with players := ⟨clearTurnIn (s ++ todo) l⟩ }, []) := by
  intro todo
  induction todo with
  | nil =>
    intro gs s l hrows _ _
    simp only [run_end_turns, List.append_nil]
    rw [← hrows]
  | cons i rest ih =>
    intro gs s l hrows hflags hmiss
    have happ : (s ++ [i]) ++ rest = s ++ i :: rest := by simp
    have hnotall : PlayerRepo.are_all_players_finished ⟨clearTurnIn (s ++ [i]) l⟩ = false := by
      rcases hmiss with ⟨p, hpmem, hpid⟩
      rw [Bool.eq_false_iff]
      intro htrue
      have hin := (are_all_finished_clearTurnIn (s ++ [i]) l hflags).mp htrue p hpmem
      apply hpid
      rcases List.mem_append.mp hin with h | h
      · exact List.mem_append.mpr (Or.inl h)
      · rcases List.mem_singleton.mp h with rfl
        exact List.mem_append.mpr (Or.inr (List.mem_cons_self _ _))
    have hstep : Engine.handle_end_turn_message gs i
        = ({ gs with players := ⟨clearTurnIn (s ++ [i]) l⟩ }, []) := by
      simp only [Engine.handle_end_turn_message, hrows, end_turn_clearTurnIn, hnotall,
        Bool.false_eq_true, if_false]
    have hmiss' : ∃ p ∈ l, p.id ∉ (s ++ [i]) ++ rest := by
      rcases hmiss with ⟨p, hpmem, hpid⟩
      exact ⟨p, hpmem, by rw [happ]; exact hpid⟩
    have hnext := ih ({ gs with players := ⟨clearTurnIn (s ++ [i]) l⟩ }) (s ++ [i]) l rfl
      hflags hmiss'
    simp only [run_end_turns, hstep, hnext, happ, List.nil_append]

theorem run_end_turns_complete :
    ∀ (todo : List Int) (gs : GameState) (s : List Int) (l : List Player),
      gs.players = ⟨clearTurnIn s l⟩ →
      (∀ p ∈ l, p.is_having_turn = true) →
      todo ≠ [] →
      (∀ p ∈ l, p.id ∈ s ++ todo) →
      (∃ p ∈ l, p.id ∉ s ++ todo.dropLast) →
      run_end_turns gs todo =
        ({ gs with players := ⟨clearTurnIn (s ++ todo) l⟩ },
          [FromGameMessage.concludePhase gs.phase]) := by
  intro todo
  induction todo with
  | nil => intro gs s l _ _ hne; cases hne rfl
  | cons i rest ih =>
    intro gs s l hrows hflags _ hcover hmiss
    by_cases hrest : rest = []
    · subst hrest
      have hall : PlayerRepo.are_all_players_finished ⟨clearTurnIn (s ++ [i]) l⟩ = true :=
        (are_all_finished_clearTurnIn (s ++ [i]) l hflags).mpr hcover
      have hstep : Engine.handle_end_turn_message gs i
          = ({ gs with players := ⟨clearTurnIn (s ++ [i]) l⟩ },
            [FromGameMessage.concludePhase gs.phase]) := by
        simp only [Engine.handle_end_turn_message, hrows, end_turn_clearTurnIn, hall, if_true]
      simp only [run_end_turns, hstep, List.append_nil]
    · have hdrop : (i :: rest).dropLast = i :: rest.dropLast :=
        List.dropLast_cons_of_ne_nil hrest
      have hnotall : PlayerRepo.are_all_players_finished ⟨clearTurnIn (s ++ [i]) l⟩ = false := by
        rcases hmiss with ⟨p, hpmem, hpid⟩
        rw [Bool.eq_false_iff]
        intro htrue
        have hin := (are_all_finished_clearTurnIn (s ++ [i]) l hflags).mp htrue p hpmem
        apply hpid
        rw [hdrop]
        rcases List.mem_append.mp hin with h | h
        · exact List.mem_append.mpr (Or.inl h)
        · rcases List.mem_singleton.mp h with rfl
          exact List.mem_append.mpr (Or.inr (List.mem_cons_self _ _))
      have hstep : Engine.handle_end_turn_message gs i
          = ({ gs with players := ⟨clearTurnIn (s ++ [i]) l⟩ }, []) := by
        simp only [Engine.handle_end_turn_message, hrows, end_turn_clearTurnIn, hnotall,
          Bool.false_eq_true, if_false]
      have happ : (s ++ [i]) ++ rest = s ++ i :: rest := by simp
      have hcover' : ∀ p ∈ l, p.id ∈ (s ++ [i]) ++ rest := by
        intro p hp
        rw [happ]
        exact hcover p hp
      have hmiss' : ∃ p ∈ l, p.id ∉ (s ++ [i]) ++ rest.dropLast := by
        rcases hmiss with ⟨p, hpmem, hpid⟩
        refine ⟨p, hpmem, fun hcon => hpid ?_⟩
        rw [hdrop]
        rcases List.mem_append.mp hcon with h | h
        · rcases List.mem_append.mp h with h2 | h2
          · exact List.mem_append.mpr (Or.inl h2)
          · rcases List.mem_singleton.mp h2 with rfl
            exact List.mem_append.mpr (Or.inr (List.mem_cons_self _ _))
        · exact List.mem_append.mpr (Or.inr (List.mem_cons_of_mem _ h))
      have hnext := ih ({ gs with players := ⟨clearTurnIn (s ++ [i]) l⟩ }) (s ++ [i]) l rfl
        hflags hrest hcover' hmiss'
      simp only [run_end_turns, hstep, hnext, happ, List.nil_append]

theorem clearTurnIn_of_cover (s : List Int) (l : List Player)
    (h : ∀ p ∈ l, p.id ∈ s) : clearTurnIn s l = l.map clearTurn := by
  apply List.map_congr_left
  intro p hp
  simp [h p hp]

/-- C6: starting from a state in which every player has an active turn
(with unique ids), handling EndTurn once for each player in ANY order
yields one and the same outcome — the state with every turn flag cleared
and everything else unchanged, plus exactly one ConcludePhase message
carrying the unchanged phase; every proper prefix of the order emits no
message (so the single ConcludePhase comes from the last EndTurn), and no
EndTurn handling ever changes the phase field. -/
theorem c6_end_turn_order_independent (gs : GameState) (perm : List Int)
    (hflags : ∀ p ∈ gs.players.rows, p.is_having_turn = true)
    (hnodup : (gs.players.rows.map Player.id).Nodup)
    (hperm : perm.Perm (gs.players.rows.map Player.id))
    (hne : gs.players.rows ≠ []) :
    run_end_turns gs perm =
      ({ gs with players := ⟨gs.players.rows.map clearTurn⟩ },
        [FromGameMessage.concludePhase gs.phase]) ∧
    (∀ k, k + 1 < perm.length → (run_end_turns gs (perm.take (k + 1))).2 = []) ∧
    (∀ (gsx : GameState) (pid : Int),
      (Engine.handle_end_turn_message gsx pid).1.phase = gsx.phase) := by
  have hrows0 : gs.players = ⟨clearTurnIn [] gs.players.rows⟩ := by
    simp [clearTurnIn]
  have hpermne : perm ≠ [] := by
    intro h
    subst h
    have hids : gs.players.rows.map Player.id = [] := hperm.nil_eq.symm
    exact hne (List.map_eq_nil_iff.mp hids)
  have hpermnodup : perm.Nodup := (hperm.nodup_iff).mpr hnodup
  have hcover : ∀ p ∈ gs.players.rows, p.id ∈ perm := by
    intro p hp
    exact hperm.mem_iff.mpr (List.mem_map.mpr ⟨p, hp, rfl⟩)
  refine ⟨?_, ?_, ?_⟩
  · have hmiss : ∃ p ∈ gs.players.rows, p.id ∉ [] ++ perm.dropLast := by
      have hjmem : perm.getLast hpermne ∈ perm := List.getLast_mem hpermne
      have hjids : perm.getLast hpermne ∈ gs.players.rows.map Player.id :=
        hperm.mem_iff.mp hjmem
      rcases List.mem_map.mp hjids with ⟨p, hp, hpid⟩
      refine ⟨p, hp, ?_⟩
      rw [List.nil_append, hpid]
      intro hdrop
      have hsplit : perm.dropLast ++ [perm.getLast hpermne] = perm :=
        List.dropLast_append_getLast hpermne
      have hnd : (perm.dropLast ++ [perm.getLast hpermne]).Nodup := by
        rw [hsplit]; exact hpermnodup
      exact (List.nodup_append.mp hnd).2.2 hdrop (List.mem_singleton_self _)
    have hres := run_end_turns_complete perm gs [] gs.players.rows hrows0 hflags hpermne
      (by intro p hp; rw [List.nil_append]; exact hcover p hp) hmiss
    rw [hres, List.nil_append, clearTurnIn_of_cover perm gs.players.rows hcover]
  · intro k hk
    have hdne : perm.drop (k + 1) ≠ [] := by
      apply List.ne_nil_of_length_pos
      rw [List.length_drop]
      omega
    have hjdrop : (perm.drop (k + 1)).head hdne ∈ perm.drop (k + 1) := List.head_mem hdne
    have hjperm : (perm.drop (k + 1)).head hdne ∈ perm := List.mem_of_mem_drop hjdrop
    have hjtake : (perm.drop (k + 1)).head hdne ∉ perm.take (k + 1) := by
      have hnd : (perm.take (k + 1) ++ perm.drop (k + 1)).Nodup := by
        rw [List.take_append_drop]; exact hpermnodup
      exact fun hj => (List.nodup_append.mp hnd).2.2 hj hjdrop
    have hjids : (perm.drop (k + 1)).head hdne ∈ gs.players.rows.map Player.id :=
      hperm.mem_iff.mp hjperm
    rcases List.mem_map.mp hjids with ⟨p, hp, hpid⟩
    have hmiss : ∃ q ∈ gs.players.rows, q.id ∉ [] ++ perm.take (k + 1) := by
      refine ⟨p, hp, ?_⟩
      rw [List.nil_append, hpid]
      exact hjtake
    have hres := run_end_turns_incomplete (perm.take (k + 1)) gs [] gs.players.rows hrows0
      hflags hmiss
    rw [hres]
  · intro gsx pid
    by_cases h : PlayerRepo.are_all_players_finished
        (PlayerRepo.end_turn gsx.players pid) = true
    · simp [Engine.handle_end_turn_message, h]
    · simp [Engine.handle_end_turn_message, h]

/-- C6 witness: ending the turns of the example state's two players in the
order 2 then 1 clears both flags, leaves the phase unchanged, and emits
exactly one ConcludePhase — from the second EndTurn only. -/
theorem c6_end_turn_order_independent_witness :
    (∀ p ∈ exState.players.rows, p.is_having_turn = true) ∧
    (run_end_turns exState [2, 1] =
      ({ exState with players := ⟨exState.players.rows.map clearTurn⟩ },
        [FromGameMessage.concludePhase exState.phase]) ∧
      (∀ k, k + 1 < ([2, 1] : List Int).length →
        (run_end_turns exState (([2, 1] : List Int).take (k + 1))).2 = []) ∧
      (∀ (gsx : GameState) (pid : Int),
        (Engine.handle_end_turn_message gsx pid).1.phase = gsx.phase)) :=
  ⟨by decide,
    c6_end_turn_order_independent exState [2, 1] (by decide) (by decide) (by decide)
      (by decide)⟩

end PowerFlowGame
